import Mathlib

/-!
Verification of the Visualier-Audio repository.

The repository is a browser audio visualizer.  The source files are
concatenations of iterative revisions of the same program; the revision in
`src/AudioVisualizer/visualizer.js` (lines 1-1388) is the one cited by the
claims, and `src/unnamed/part_000` (lines 781-3368) is a later revision of
the same manager with a try/catch around effect disposal and two extra
modes.  This file shallowly embeds:

* `VisualizerManager.getAudioData` (both the active-audio branch and the
  demo branch),
* `FireworksEffect.update` / `explode` / `launchRocket`,
* `VisualizerManager.switchMode` and the per-frame `animate` loop.

Machine floats are modelled by exact arithmetic: audio bins and clock
values by `ℚ`, and quantities that flow through `Math.sin` / `Math.cos` /
`Math.acos` by `ℝ` with the corresponding `Real` functions.
-/

namespace Visualizer

/- ### Configuration

Source: `CONFIG` in `visualizer.js` lines 7-13.  The analyser is created
with `analyser.fftSize = CONFIG.fftSize`, and the Web Audio API defines
`frequencyBinCount = fftSize / 2`. -/

def fftSize : ℕ := 2048

def frequencyBinCount : ℕ := fftSize / 2

/- ### getAudioData, active branch (visualizer.js lines 1316-1331)

`const lowBound = Math.floor(bufferLength * 0.1);`
`const midBound = Math.floor(bufferLength * 0.5);` -/

def lowBound (n : ℕ) : ℕ := (⌊(n : ℚ) * (1 / 10)⌋).toNat

def midBound (n : ℕ) : ℕ := (⌊(n : ℚ) * (5 / 10)⌋).toNat

/-- Value of bin `i`: `const val = dataArray[i] / 255.0;`.  The byte array
is modelled as a `List ℕ`; out-of-range reads default to `0` (they do not
occur for the fixed configuration). -/
def binVal (data : List ℕ) (i : ℕ) : ℚ := (data.getD i 0 : ℚ) / 255

/-- The accumulation loop of `getAudioData`
(`for (let i = 0; i < bufferLength; i++) { ... }`): bin `i` is added to
`lowSum` when `i < lowBound`, to `midSum` when `i < midBound`, otherwise
to `highSum`.  `sumsAux l m data n` is the state `(lowSum, midSum,
highSum)` after the first `n` iterations. -/
def sumsAux (l m : ℕ) (data : List ℕ) : ℕ → ℚ × ℚ × ℚ
  | 0 => (0, 0, 0)
  | k + 1 =>
    let s := sumsAux l m data k
    let val := binVal data k
    if k < l then (s.1 + val, s.2.1, s.2.2)
    else if k < m then (s.1, s.2.1 + val, s.2.2)
    else (s.1, s.2.1, s.2.2 + val)

/-- Bands returned by the active branch of `getAudioData`:
`low = lowSum / lowBound; mid = midSum / (midBound - lowBound);`
`high = highSum / (bufferLength - midBound);`. -/
structure AudioBands where
  low : ℚ
  mid : ℚ
  high : ℚ
deriving DecidableEq

def getAudioDataActive (n : ℕ) (data : List ℕ) : AudioBands :=
  ⟨(sumsAux (lowBound n) (midBound n) data n).1 / (lowBound n : ℚ),
   (sumsAux (lowBound n) (midBound n) data n).2.1 / ((midBound n - lowBound n : ℕ) : ℚ),
   (sumsAux (lowBound n) (midBound n) data n).2.2 / ((n - midBound n : ℕ) : ℚ)⟩

/-- Mean of the raw byte bins over an index set (the claims compare the
returned band value with this mean divided by 255). -/
def bandMean (data : List ℕ) (s : Finset ℕ) : ℚ :=
  (∑ i ∈ s, (data.getD i 0 : ℚ)) / s.card

/- ### getAudioData, demo branch (visualizer.js lines 1333-1336)

`low = (Math.sin(time * 2.0) * 0.5 + 0.5) * 0.8;`
`mid = (Math.sin(time * 1.5 + 1.0) * 0.5 + 0.5) * 0.6;`
`high = (Math.sin(time * 3.0 + 2.0) * 0.5 + 0.5) * 0.5;` -/

structure AudioBandsR where
  low : ℝ
  mid : ℝ
  high : ℝ

noncomputable def getAudioDataDemo (time : ℝ) : AudioBandsR :=
  ⟨(Real.sin (time * 2) * 0.5 + 0.5) * 0.8,
   (Real.sin (time * 1.5 + 1) * 0.5 + 0.5) * 0.6,
   (Real.sin (time * 3 + 2) * 0.5 + 0.5) * 0.5⟩

/- ### Helper lemmas for the audio band sums -/

lemma lowBound_fbc : lowBound frequencyBinCount = 102 := by
  norm_num [lowBound, frequencyBinCount, fftSize]
  rfl

lemma midBound_fbc : midBound frequencyBinCount = 512 := by
  norm_num [midBound, frequencyBinCount, fftSize]
  rfl

lemma frequencyBinCount_eq : frequencyBinCount = 1024 := by decide

lemma sumsAux_eq (l m : ℕ) (hlm : l ≤ m) (data : List ℕ) (n : ℕ) :
    sumsAux l m data n =
      (∑ i ∈ (Finset.range n).filter (fun i => i < l), binVal data i,
       ∑ i ∈ (Finset.range n).filter (fun i => l ≤ i ∧ i < m), binVal data i,
       ∑ i ∈ (Finset.range n).filter (fun i => m ≤ i), binVal data i) := by
  induction n with
  | zero => simp [sumsAux]
  | succ k ih =>
    rw [sumsAux, ih]
    by_cases h1 : k < l
    · rw [if_pos h1, Finset.range_succ, Finset.filter_insert, Finset.filter_insert,
        Finset.filter_insert, if_pos h1, if_neg (show ¬ (l ≤ k ∧ k < m) by omega),
        if_neg (show ¬ m ≤ k by omega), Finset.sum_insert (by simp)]
      exact Prod.ext (add_comm _ _) rfl
    · by_cases h2 : k < m
      · rw [if_neg h1, if_pos h2, Finset.range_succ, Finset.filter_insert, Finset.filter_insert,
          Finset.filter_insert, if_neg h1, if_pos (show l ≤ k ∧ k < m by omega),
          if_neg (show ¬ m ≤ k by omega), Finset.sum_insert (by simp)]
        exact Prod.ext rfl (Prod.ext (add_comm _ _) rfl)
      · rw [if_neg h1, if_neg h2, Finset.range_succ, Finset.filter_insert, Finset.filter_insert,
          Finset.filter_insert, if_neg h1, if_neg (show ¬ (l ≤ k ∧ k < m) by omega),
          if_pos (show m ≤ k by omega), Finset.sum_insert (by simp)]
        exact Prod.ext rfl (Prod.ext rfl (add_comm _ _))

lemma filter_lt_eq_Ico (l n : ℕ) (h : l ≤ n) :
    (Finset.range n).filter (fun i => i < l) = Finset.Ico 0 l := by
  ext i
  simp only [Finset.mem_filter, Finset.mem_range, Finset.mem_Ico]
  omega

lemma filter_mid_eq_Ico (l m n : ℕ) (h : m ≤ n) :
    (Finset.range n).filter (fun i => l ≤ i ∧ i < m) = Finset.Ico l m := by
  ext i
  simp only [Finset.mem_filter, Finset.mem_range, Finset.mem_Ico]
  omega

lemma filter_ge_eq_Ico (m n : ℕ) :
    (Finset.range n).filter (fun i => m ≤ i) = Finset.Ico m n := by
  ext i
  simp only [Finset.mem_filter, Finset.mem_range, Finset.mem_Ico]
  omega

lemma binVal_nonneg (data : List ℕ) (i : ℕ) : 0 ≤ binVal data i := by
  unfold binVal
  positivity

lemma getD_le_255 (data : List ℕ) (hdata : ∀ x ∈ data, x ≤ 255) (i : ℕ) :
    data.getD i 0 ≤ 255 := by
  by_cases h : i < data.length
  · rw [List.getD_eq_getElem data 0 h]
    exact hdata _ (List.getElem_mem h)
  · rw [List.getD_eq_default data 0 (by omega)]
    omega

lemma binVal_le_one (data : List ℕ) (hdata : ∀ x ∈ data, x ≤ 255) (i : ℕ) :
    binVal data i ≤ 1 := by
  unfold binVal
  rw [div_le_one (by norm_num)]
  exact_mod_cast getD_le_255 data hdata i

/-- Sum of `binVal` over a finite index set is between `0` and the size of
the set, for byte-valued data. -/
lemma sum_binVal_bounds (data : List ℕ) (hdata : ∀ x ∈ data, x ≤ 255) (s : Finset ℕ) :
    0 ≤ ∑ i ∈ s, binVal data i ∧ ∑ i ∈ s, binVal data i ≤ s.card := by
  constructor
  · exact Finset.sum_nonneg fun i _ => binVal_nonneg data i
  · calc ∑ i ∈ s, binVal data i ≤ s.card • (1 : ℚ) :=
          Finset.sum_le_card_nsmul s _ 1 fun i _ => binVal_le_one data hdata i
    _ = s.card := by simp

lemma sum_binVal_eq (data : List ℕ) (s : Finset ℕ) :
    ∑ i ∈ s, binVal data i = (∑ i ∈ s, (data.getD i 0 : ℚ)) / 255 := by
  rw [Finset.sum_div]
  rfl

lemma getAudioDataActive_fbc (data : List ℕ) :
    getAudioDataActive frequencyBinCount data =
      ⟨(∑ i ∈ Finset.Ico 0 102, binVal data i) / 102,
       (∑ i ∈ Finset.Ico 102 512, binVal data i) / 410,
       (∑ i ∈ Finset.Ico 512 1024, binVal data i) / 512⟩ := by
  have h := sumsAux_eq 102 512 (by norm_num) data 1024
  rw [filter_lt_eq_Ico 102 1024 (by norm_num), filter_mid_eq_Ico 102 512 1024 (by norm_num),
    filter_ge_eq_Ico 512 1024] at h
  unfold getAudioDataActive
  rw [lowBound_fbc, midBound_fbc, frequencyBinCount_eq, h]
  norm_num

/-- Statement of claim C1 for a given bin array: the three bands cut the
index range `[0, frequencyBinCount)` at `⌊0.1·N⌋ = 102` and
`⌊0.5·N⌋ = 512` into contiguous, disjoint, gap-free pieces, each returned
band value is the arithmetic mean of its bins divided by 255, and each
band value lies in `[0, 1]`. -/
def ActiveBandsSpec (data : List ℕ) : Prop :=
  lowBound frequencyBinCount = 102 ∧ midBound frequencyBinCount = 512 ∧
  (Finset.Ico 0 102 ∪ Finset.Ico 102 512 ∪ Finset.Ico 512 1024 =
    Finset.range frequencyBinCount) ∧
  Disjoint (Finset.Ico (0 : ℕ) 102) (Finset.Ico 102 512) ∧
  Disjoint (Finset.Ico (102 : ℕ) 512) (Finset.Ico 512 1024) ∧
  Disjoint (Finset.Ico (0 : ℕ) 102) (Finset.Ico 512 1024) ∧
  (getAudioDataActive frequencyBinCount data).low = bandMean data (Finset.Ico 0 102) / 255 ∧
  (getAudioDataActive frequencyBinCount data).mid = bandMean data (Finset.Ico 102 512) / 255 ∧
  (getAudioDataActive frequencyBinCount data).high = bandMean data (Finset.Ico 512 1024) / 255 ∧
  0 ≤ (getAudioDataActive frequencyBinCount data).low ∧
  (getAudioDataActive frequencyBinCount data).low ≤ 1 ∧
  0 ≤ (getAudioDataActive frequencyBinCount data).mid ∧
  (getAudioDataActive frequencyBinCount data).mid ≤ 1 ∧
  0 ≤ (getAudioDataActive frequencyBinCount data).high ∧
  (getAudioDataActive frequencyBinCount data).high ≤ 1

/-- C1: in active-audio mode, `getAudioData` partitions the frequency-bin
index range `[0, frequencyBinCount)` into three contiguous, non-overlapping,
gap-free bands cut at `⌊0.1·N⌋` and `⌊0.5·N⌋`, each band's value is the
arithmetic mean of its bins divided by 255, and every band value lies in
`[0, 1]` for byte-valued bins. -/
theorem getAudioData_active_partition_mean (data : List ℕ)
    (hdata : ∀ x ∈ data, x ≤ 255) : ActiveBandsSpec data := by
  have hfbc := getAudioDataActive_fbc data
  have hlo := sum_binVal_bounds data hdata (Finset.Ico 0 102)
  have hmi := sum_binVal_bounds data hdata (Finset.Ico 102 512)
  have hhi := sum_binVal_bounds data hdata (Finset.Ico 512 1024)
  have hcard1 : ((Finset.Ico (0:ℕ) 102).card : ℚ) = 102 := by simp
  have hcard2 : ((Finset.Ico (102:ℕ) 512).card : ℚ) = 410 := by simp
  have hcard3 : ((Finset.Ico (512:ℕ) 1024).card : ℚ) = 512 := by simp
  rw [hcard1] at hlo
  rw [hcard2] at hmi
  rw [hcard3] at hhi
  refine ⟨lowBound_fbc, midBound_fbc, ?_, ?_, ?_, ?_, ?_, ?_, ?_, ?_, ?_, ?_, ?_, ?_, ?_⟩
  · rw [Finset.Ico_union_Ico_eq_Ico (by norm_num) (by norm_num),
      Finset.Ico_union_Ico_eq_Ico (by norm_num) (by norm_num),
      frequencyBinCount_eq, Finset.range_eq_Ico]
  · exact Finset.Ico_disjoint_Ico_consecutive 0 102 512
  · exact Finset.Ico_disjoint_Ico_consecutive 102 512 1024
  · rw [Finset.disjoint_left]
    intro i hi hj
    simp only [Finset.mem_Ico] at hi hj
    omega
  · rw [hfbc]
    show (∑ i ∈ Finset.Ico 0 102, binVal data i) / 102 = _
    rw [sum_binVal_eq, bandMean, hcard1, div_div, div_div, mul_comm]
  · rw [hfbc]
    show (∑ i ∈ Finset.Ico 102 512, binVal data i) / 410 = _
    rw [sum_binVal_eq, bandMean, hcard2, div_div, div_div, mul_comm]
  · rw [hfbc]
    show (∑ i ∈ Finset.Ico 512 1024, binVal data i) / 512 = _
    rw [sum_binVal_eq, bandMean, hcard3, div_div, div_div, mul_comm]
  · rw [hfbc]
    show (0:ℚ) ≤ (∑ i ∈ Finset.Ico 0 102, binVal data i) / 102
    exact div_nonneg hlo.1 (by norm_num)
  · rw [hfbc]
    show (∑ i ∈ Finset.Ico 0 102, binVal data i) / 102 ≤ 1
    rw [div_le_one (by norm_num)]
    exact hlo.2
  · rw [hfbc]
    show (0:ℚ) ≤ (∑ i ∈ Finset.Ico 102 512, binVal data i) / 410
    exact div_nonneg hmi.1 (by norm_num)
  · rw [hfbc]
    show (∑ i ∈ Finset.Ico 102 512, binVal data i) / 410 ≤ 1
    rw [div_le_one (by norm_num)]
    exact hmi.2
  · rw [hfbc]
    show (0:ℚ) ≤ (∑ i ∈ Finset.Ico 512 1024, binVal data i) / 512
    exact div_nonneg hhi.1 (by norm_num)
  · rw [hfbc]
    show (∑ i ∈ Finset.Ico 512 1024, binVal data i) / 512 ≤ 1
    rw [div_le_one (by norm_num)]
    exact hhi.2

/-- Witness for C1: the empty bin array is byte-valued, and the theorem
applies to it. -/
theorem getAudioData_active_partition_mean_witness :
    (∀ x ∈ ([] : List ℕ), x ≤ 255) ∧ ActiveBandsSpec [] :=
  ⟨by simp, getAudioData_active_partition_mean [] (by simp)⟩

/- ### Demo-mode claims -/

/-- Closed-form demo signal as the spec writes it:
`low(t) = (0.5 + 0.5*sin(2t)) * 0.8` and the analogous `mid`/`high`
formulas read off the code's frequencies and phases. -/
noncomputable def demoSpecBands (t : ℝ) : AudioBandsR :=
  ⟨(0.5 + 0.5 * Real.sin (2 * t)) * 0.8,
   (0.5 + 0.5 * Real.sin (1.5 * t + 1)) * 0.6,
   (0.5 + 0.5 * Real.sin (3 * t + 2)) * 0.5⟩

/-- C4: in demo mode the band signal is a pure deterministic function of
time matching the closed-form sine formulas; two calls with the same time
return identical bands. -/
theorem getAudioDataDemo_closed_form (t t' : ℝ) (h : t' = t) :
    getAudioDataDemo t = demoSpecBands t ∧
      getAudioDataDemo t' = getAudioDataDemo t := by
  subst h
  refine ⟨?_, rfl⟩
  simp only [getAudioDataDemo, demoSpecBands, AudioBandsR.mk.injEq]
  refine ⟨?_, ?_, ?_⟩ <;> ring_nf

/-- Witness for C4 at `t = 0`. -/
theorem getAudioDataDemo_closed_form_witness :
    getAudioDataDemo 0 = demoSpecBands 0 ∧ getAudioDataDemo 0 = getAudioDataDemo 0 :=
  getAudioDataDemo_closed_form 0 0 rfl

lemma sin_one_pos : 0 < Real.sin 1 :=
  Real.sin_pos_of_pos_of_lt_pi one_pos (by linarith [Real.pi_gt_three])

lemma sin_two_pos : 0 < Real.sin 2 :=
  Real.sin_pos_of_pos_of_lt_pi two_pos (by linarith [Real.pi_gt_three])

/-- Counterexample to C3: sampling the demo signal at time 0 does not give
`{low: 0.4, mid: 0.3, high: 0.25}` (the mid band is
`(0.5 + 0.5·sin 1)·0.6 > 0.3` because `sin 1 > 0`). -/
theorem getAudioDataDemo_zero_ne : getAudioDataDemo 0 ≠ ⟨0.4, 0.3, 0.25⟩ := by
  intro h
  have hm := congrArg AudioBandsR.mid h
  simp only [getAudioDataDemo] at hm
  rw [show (0:ℝ) * 1.5 + 1 = 1 by norm_num] at hm
  nlinarith [sin_one_pos]

/-- C3 amended: in demo mode, sampling at time 0 returns
`low = 0.4` exactly, `mid = (0.5 + 0.5·sin 1)·0.6` and
`high = (0.5 + 0.5·sin 2)·0.5`; the latter two are strictly greater than
the claimed 0.3 and 0.25. -/
theorem getAudioDataDemo_zero_exact :
    getAudioDataDemo 0 =
      ⟨0.4, (0.5 + 0.5 * Real.sin 1) * 0.6, (0.5 + 0.5 * Real.sin 2) * 0.5⟩ ∧
    0.3 < (getAudioDataDemo 0).mid ∧ 0.25 < (getAudioDataDemo 0).high := by
  have h1 : (0:ℝ) * 1.5 + 1 = 1 := by norm_num
  have h2 : (0:ℝ) * 3 + 2 = 2 := by norm_num
  have h0 : (0:ℝ) * 2 = 0 := by norm_num
  refine ⟨?_, ?_, ?_⟩
  · simp only [getAudioDataDemo, AudioBandsR.mk.injEq, h0, h1, h2, Real.sin_zero]
    refine ⟨by norm_num, by ring, by ring⟩
  · simp only [getAudioDataDemo, h1]
    nlinarith [sin_one_pos]
  · simp only [getAudioDataDemo, h2]
    nlinarith [sin_two_pos]

/-- C10: with the fixed configuration `fftSize = 2048` (so
`frequencyBinCount = 1024`), the three divisors of the active band
computation — `lowBound`, `midBound - lowBound`, `bufferLength - midBound`
— are strictly positive, and the demo branch always returns three bounded
(hence finite) values. -/
theorem audio_divisors_positive :
    0 < lowBound frequencyBinCount ∧
    lowBound frequencyBinCount < midBound frequencyBinCount ∧
    midBound frequencyBinCount < frequencyBinCount ∧
    (∀ t : ℝ,
      0 ≤ (getAudioDataDemo t).low ∧ (getAudioDataDemo t).low ≤ 0.8 ∧
      0 ≤ (getAudioDataDemo t).mid ∧ (getAudioDataDemo t).mid ≤ 0.6 ∧
      0 ≤ (getAudioDataDemo t).high ∧ (getAudioDataDemo t).high ≤ 0.5) := by
  refine ⟨by rw [lowBound_fbc]; norm_num,
    by rw [lowBound_fbc, midBound_fbc]; norm_num,
    by rw [midBound_fbc, frequencyBinCount_eq]; norm_num, ?_⟩
  intro t
  have b1 := Real.neg_one_le_sin (t * 2)
  have b2 := Real.sin_le_one (t * 2)
  have b3 := Real.neg_one_le_sin (t * 1.5 + 1)
  have b4 := Real.sin_le_one (t * 1.5 + 1)
  have b5 := Real.neg_one_le_sin (t * 3 + 2)
  have b6 := Real.sin_le_one (t * 3 + 2)
  simp only [getAudioDataDemo]
  refine ⟨by nlinarith, by nlinarith, by nlinarith, by nlinarith, by nlinarith, by nlinarith⟩

/- ### FireworksEffect (visualizer.js lines 425-790)

Positions and velocities flow through `Math.sin`/`Math.cos`/`Math.acos`
and are modelled over `ℝ`; ages, lifespans and the launch clock are exact
decimals and are modelled over `ℚ`.  `Math.random()` draws and the
per-rocket wiggle term `Math.sin(time * 10 + i) * 0.05` are environmental
inputs and are passed in explicitly. -/

/-- Rocket/burst shape tag: `type` is `'heart'`, `'star'`, `'leaf'` or
`'dot'` in the source. -/
inductive RocketType
  | heart
  | star
  | leaf
  | dot
deriving DecidableEq

structure Vec3 where
  x : ℝ
  y : ℝ
  z : ℝ

/-- Per-particle velocity entry pushed in `explode`:
`velocities.push({ x, y, z, decay: Math.random() * 0.01 + 0.005 })`.
The `decay` field is stored but never read by this revision's `update`. -/
structure PartVel where
  vx : ℝ
  vy : ℝ
  vz : ℝ
  decay : ℝ

/-- One entry of `this.particles`: a burst (a `THREE.Points` mesh) with the
positions array, the stored velocities, and the `age`/`lifespan` pair used
for fading and removal. -/
structure Burst where
  positions : List Vec3
  velocities : List PartVel
  age : ℚ
  lifespan : ℚ
  ty : RocketType

/-- Floor plane height of the fireworks scene:
`this.floor.position.y = -5`. -/
noncomputable def floorY : ℝ := -5

/-- Physics step for one particle of a live burst
(visualizer.js lines 724-742): position advances by the velocity, then
gravity `v.y -= 0.01`, drag `*= 0.98`, and an audio-turbulence kick when
`audioData.high > 0.3` (the random kick is the `turb` input). -/
noncomputable def stepParticle (high : ℚ) (turb : Vec3) (pos : Vec3) (v : PartVel) :
    Vec3 × PartVel :=
  let pos' : Vec3 := ⟨pos.x + v.vx, pos.y + v.vy, pos.z + v.vz⟩
  let v1 : PartVel := ⟨v.vx * 0.98, (v.vy - 0.01) * 0.98, v.vz * 0.98, v.decay⟩
  let v2 : PartVel :=
    if (3 / 10 : ℚ) < high then ⟨v1.vx + turb.x, v1.vy + turb.y, v1.vz + turb.z, v.decay⟩
    else v1
  (pos', v2)

/-- One frame of a burst: `p.age += 0.016` and the per-particle physics
loop over `j < p.velocities.length`. -/
noncomputable def stepBurst (high : ℚ) (turbs : ℕ → Vec3) (b : Burst) : Burst :=
  { b with
    age := b.age + 16 / 1000,
    positions := (List.range b.velocities.length).map fun j =>
      (stepParticle high (turbs j) (b.positions.getD j ⟨0, 0, 0⟩)
        (b.velocities.getD j ⟨0, 0, 0, 0⟩)).1,
    velocities := (List.range b.velocities.length).map fun j =>
      (stepParticle high (turbs j) (b.positions.getD j ⟨0, 0, 0⟩)
        (b.velocities.getD j ⟨0, 0, 0, 0⟩)).2 }

/-- Opacity written to the burst's material each frame:
`p.mesh.material.opacity = 1.0 - (p.age / p.lifespan);`. -/
def burstOpacity (b : Burst) : ℚ := 1 - b.age / b.lifespan

/-- The particles section of `FireworksEffect.update`: every burst is
stepped, and a burst is spliced out exactly when `p.age >= p.lifespan`
after the step.  No positional condition is checked. -/
noncomputable def updateParticles (high : ℚ) (turbs : ℕ → Vec3) (bursts : List Burst) :
    List Burst :=
  (bursts.map (stepBurst high turbs)).filter fun b => decide (b.age < b.lifespan)

/-- Concrete burst sitting far below the floor plane, with plenty of
lifespan left. -/
noncomputable def bBelowFloor : Burst :=
  { positions := [⟨0, -100, 0⟩]
    velocities := [⟨0, 0, 0, 1 / 100⟩]
    age := 0
    lifespan := 2
    ty := RocketType.dot }

/-- Counterexample to C5: a burst whose particle is far below the floor
plane (`y = -100 < -5 = floorY`) and whose opacity is still positive
survives the frame — the fireworks `update` of this revision removes
bursts only by `age >= lifespan` and never by a floor-plane test. -/
theorem fireworks_no_floor_removal :
    (bBelowFloor.positions.getD 0 ⟨0, 0, 0⟩).y < floorY ∧
    0 < burstOpacity (stepBurst 0 (fun _ => ⟨0, 0, 0⟩) bBelowFloor) ∧
    (updateParticles 0 (fun _ => ⟨0, 0, 0⟩) [bBelowFloor]).length = 1 := by
  refine ⟨?_, ?_, ?_⟩
  · show (-100 : ℝ) < floorY
    norm_num [floorY]
  · show 0 < burstOpacity (stepBurst 0 (fun _ => ⟨0, 0, 0⟩) bBelowFloor)
    have : burstOpacity (stepBurst 0 (fun _ => ⟨0, 0, 0⟩) bBelowFloor) =
        1 - (0 + 16 / 1000) / 2 := rfl
    rw [this]
    norm_num
  · show (List.filter _ (List.map _ [bBelowFloor])).length = 1
    rw [List.map_singleton, List.filter_singleton]
    have hcond : decide ((stepBurst 0 (fun _ => ⟨0, 0, 0⟩) bBelowFloor).age <
        (stepBurst 0 (fun _ => ⟨0, 0, 0⟩) bBelowFloor).lifespan) = true := by
      rw [decide_eq_true_eq]
      show (0 : ℚ) + 16 / 1000 < 2
      norm_num
    rw [hcond]
    rfl

/-- C5 amended: for every live burst with positive lifespan, the computed
opacity `1 - age/lifespan` is non-increasing from frame to frame, and the
burst's particles are removed from the live set in exactly the frame in
which this opacity first reaches `≤ 0` (equivalently `age` reaches
`lifespan`); falling below the floor plane does not cause removal. -/
theorem fireworks_burst_opacity_lifecycle (high : ℚ) (turbs : ℕ → Vec3)
    (bursts : List Burst) (b : Burst) (hb : b ∈ bursts) (hl : 0 < b.lifespan) :
    burstOpacity (stepBurst high turbs b) ≤ burstOpacity b ∧
    (stepBurst high turbs b ∈ updateParticles high turbs bursts ↔
      0 < burstOpacity (stepBurst high turbs b)) := by
  have hage : (stepBurst high turbs b).age = b.age + 16 / 1000 := rfl
  have hlife : (stepBurst high turbs b).lifespan = b.lifespan := rfl
  have hlt : (stepBurst high turbs b).age < (stepBurst high turbs b).lifespan ↔
      0 < burstOpacity (stepBurst high turbs b) := by
    unfold burstOpacity
    rw [hage, hlife]
    rw [sub_pos, div_lt_one hl]
  constructor
  · unfold burstOpacity
    rw [hage, hlife]
    have hdiv : b.age / b.lifespan ≤ (b.age + 16 / 1000) / b.lifespan := by
      rw [div_le_div_iff₀ hl hl]
      nlinarith
    linarith
  · unfold updateParticles
    rw [List.mem_filter, decide_eq_true_eq, ← hlt]
    constructor
    · rintro ⟨-, hpred⟩
      exact hpred
    · intro hpred
      exact ⟨List.mem_map_of_mem _ hb, hpred⟩

/-- Witness for the amended C5 theorem on the concrete burst. -/
theorem fireworks_burst_opacity_lifecycle_witness :
    bBelowFloor ∈ [bBelowFloor] ∧ (0 : ℚ) < bBelowFloor.lifespan ∧
    (burstOpacity (stepBurst 0 (fun _ => ⟨0, 0, 0⟩) bBelowFloor) ≤ burstOpacity bBelowFloor ∧
     (stepBurst 0 (fun _ => ⟨0, 0, 0⟩) bBelowFloor ∈
        updateParticles 0 (fun _ => ⟨0, 0, 0⟩) [bBelowFloor] ↔
       0 < burstOpacity (stepBurst 0 (fun _ => ⟨0, 0, 0⟩) bBelowFloor))) :=
  ⟨List.mem_singleton.mpr rfl, by norm_num [bBelowFloor],
   fireworks_burst_opacity_lifecycle 0 (fun _ => ⟨0, 0, 0⟩) [bBelowFloor] bBelowFloor
     (List.mem_singleton.mpr rfl) (by norm_num [bBelowFloor])⟩

/- ### Fireworks launch / rocket flight / explosion (C6) -/

/-- Launch decision made at the top of `FireworksEffect.update`
(visualizer.js lines 674-695): guarded by the 100 ms cooldown
`now - this.lastLaunchTime > 100`, bass above 0.45 launches a heart, mids
above 0.4 launch a star half of the time, highs above 0.5 launch a leaf
with probability 0.4, and otherwise an idle `'dot'` rocket of intensity
0.3 launches once more than 1500 ms have passed.  `r1`/`r2` are the
`Math.random()` coin flips. -/
def launchDecision (now last low mid high r1 r2 : ℚ) : Option (RocketType × ℚ) :=
  if 100 < now - last then
    if 45 / 100 < low then some (RocketType.heart, low)
    else if 4 / 10 < mid ∧ r1 < 1 / 2 then some (RocketType.star, mid)
    else if 5 / 10 < high ∧ r2 < 4 / 10 then some (RocketType.leaf, high)
    else if 1500 < now - last then some (RocketType.dot, 3 / 10)
    else none
  else none

/-- In-flight rocket pushed by `launchRocket`. -/
structure Rocket where
  pos : Vec3
  vel : Vec3
  targetY : ℝ
  ty : RocketType
  intensity : ℚ

/-- `FireworksEffect.launchRocket` (visualizer.js lines 567-584):
`pos = ((rand-0.5)*60, -5, (rand-0.5)*30 - 20)`,
`vel = (0, 0.8 + rand*0.2, 0)`, `targetY = 25 + rand*15`. -/
noncomputable def launchRocket (ty : RocketType) (intensity : ℚ) (rx rz rty rvel : ℝ) :
    Rocket :=
  { pos := ⟨(rx - 0.5) * 60, -5, (rz - 0.5) * 30 - 20⟩
    vel := ⟨0, 0.8 + rvel * 0.2, 0⟩
    targetY := 25 + rty * 15
    ty := ty
    intensity := intensity }

/-- One frame of rocket flight (visualizer.js lines 699-707):
`r.pos.add(r.vel)` followed by the magical wiggle
`r.pos.x += Math.sin(time * 10 + i) * 0.05`. -/
noncomputable def stepRocket (time : ℝ) (i : ℕ) (r : Rocket) : Rocket :=
  { r with pos := ⟨r.pos.x + r.vel.x + Real.sin (time * 10 + i) * 0.05,
                   r.pos.y + r.vel.y,
                   r.pos.z + r.vel.z⟩ }

/-- The rockets section of `FireworksEffect.update`: every rocket is
stepped, and `if (r.pos.y >= r.targetY)` it explodes and is spliced out.
Returns (still flying, exploded this frame). -/
noncomputable def updateRockets (time : ℝ) (rockets : List Rocket) :
    List Rocket × List Rocket :=
  ((rockets.enum.map fun p => stepRocket time p.1 p.2).filter
      fun r => decide (r.pos.y < r.targetY),
   (rockets.enum.map fun p => stepRocket time p.1 p.2).filter
      fun r => decide (r.targetY ≤ r.pos.y))

/-- Number of burst particles:
`const particleCount = 150 + Math.floor(intensity * 200);`. -/
def particleCount (intensity : ℚ) : ℕ := 150 + (⌊intensity * 200⌋).toNat

/-- Per-particle `Math.random()` draws consumed by `explode`. -/
structure PartDraws where
  rSpeed : ℝ
  rT : ℝ
  rStar : ℝ
  rTheta : ℝ
  rPhi : ℝ
  rZ : ℝ
  rDecay : ℝ

/-- Initial velocity of burst particle `i` (visualizer.js lines 605-634):
heart bursts follow the heart-curve formula
`x = 16·sin³ t`, `y = 13·cos t − 5·cos 2t − 2·cos 3t − cos 4t` scaled by
0.05; star bursts place particle `i` at angle `(i/5)·2π` with radius 1 or
0.4; every other type is a uniform sphere burst via
`phi = acos(2·rand − 1)`. -/
noncomputable def explodeVel (ty : RocketType) (intensity : ℚ) (i : ℕ) (d : PartDraws) :
    Vec3 :=
  let speed : ℝ := (0.3 + d.rSpeed * 0.5) * (1 + (intensity : ℝ))
  match ty with
  | RocketType.heart =>
    let t := d.rT * (Real.pi * 2)
    ⟨16 * (Real.sin t) ^ 3 * 0.05,
     (13 * Real.cos t - 5 * Real.cos (2 * t) - 2 * Real.cos (3 * t) - Real.cos (4 * t)) * 0.05,
     (d.rZ - 0.5) * 0.5⟩
  | RocketType.star =>
    let angle := ((i : ℝ) / 5) * Real.pi * 2
    let r : ℝ := if d.rStar < 0.5 then 1 else 0.4
    ⟨Real.cos angle * r * speed, Real.sin angle * r * speed, (d.rZ - 0.5) * speed⟩
  | _ =>
    let theta := d.rTheta * Real.pi * 2
    let phi := Real.arccos (d.rPhi * 2 - 1)
    ⟨Real.sin phi * Real.cos theta * speed,
     Real.sin phi * Real.sin theta * speed,
     Real.cos phi * speed⟩

/-- `FireworksEffect.explode` (visualizer.js lines 586-654): a burst of
`particleCount intensity` particles, all starting at the explosion
position, with shape-dependent velocities, `age = 0` and
`lifespan = 2.0 + intensity`. -/
noncomputable def explode (pos : Vec3) (ty : RocketType) (intensity : ℚ)
    (draws : ℕ → PartDraws) : Burst :=
  { positions := List.replicate (particleCount intensity) pos
    velocities := (List.range (particleCount intensity)).map fun i =>
      let v := explodeVel ty intensity i (draws i)
      ⟨v.x, v.y, v.z, (draws i).rDecay * 0.01 + 0.005⟩
    age := 0
    lifespan := 2 + intensity
    ty := ty }

/-- Counterexample to C6: with all three band energies at 0 — below every
launch threshold — the idle branch still launches a `'dot'` rocket once
more than 1500 ms have elapsed, so launches are not gated solely on a band
exceeding its threshold. -/
theorem fireworks_idle_launch :
    launchDecision 2000 0 0 0 0 1 1 = some (RocketType.dot, 3 / 10) ∧
    ¬ 45 / 100 < (0 : ℚ) ∧ ¬ 4 / 10 < (0 : ℚ) ∧ ¬ 5 / 10 < (0 : ℚ) := by
  refine ⟨?_, by norm_num, by norm_num, by norm_num⟩
  unfold launchDecision
  norm_num

/-- C6 amended: every launch requires the 100 ms cooldown; heart/star/leaf
launches additionally require their band above its threshold (with the
coin flips for star and leaf), while the idle `'dot'` launch needs only
1500 ms of silence; rockets fly at constant velocity plus a sinusoidal
x-wiggle; a rocket explodes and leaves the in-flight set exactly when its
stepped height reaches `targetY`; and the resulting burst has
`150 + ⌊intensity·200⌋` particles whose initial velocities follow the
heart-, star- or sphere-shaped generator selected by the rocket type. -/
theorem fireworks_launch_flight_burst
    (now last low mid high r1 r2 : ℚ) (ty : RocketType) (intensity : ℚ)
    (time : ℝ) (i : ℕ) (r : Rocket) (rockets : List Rocket)
    (pos : Vec3) (draws : ℕ → PartDraws) (j : ℕ)
    (h : launchDecision now last low mid high r1 r2 = some (ty, intensity))
    (hj : j < particleCount intensity) :
    (100 < now - last) ∧
    (ty = RocketType.heart → 45 / 100 < low ∧ intensity = low) ∧
    (ty = RocketType.star → 4 / 10 < mid ∧ r1 < 1 / 2 ∧ intensity = mid) ∧
    (ty = RocketType.leaf → 5 / 10 < high ∧ r2 < 4 / 10 ∧ intensity = high) ∧
    (ty = RocketType.dot → 1500 < now - last ∧ intensity = 3 / 10) ∧
    ((stepRocket time i r).vel = r.vel ∧
     (stepRocket time i r).pos.y = r.pos.y + r.vel.y ∧
     (stepRocket time i r).pos.x = r.pos.x + r.vel.x + Real.sin (time * 10 + i) * 0.05 ∧
     (stepRocket time i r).pos.z = r.pos.z + r.vel.z) ∧
    ((r ∈ (updateRockets time rockets).2 ↔
        r ∈ rockets.enum.map (fun p => stepRocket time p.1 p.2) ∧ r.targetY ≤ r.pos.y) ∧
     (r ∈ (updateRockets time rockets).1 ↔
        r ∈ rockets.enum.map (fun p => stepRocket time p.1 p.2) ∧ r.pos.y < r.targetY)) ∧
    ((explode pos ty intensity draws).velocities.length = particleCount intensity ∧
     (explode pos ty intensity draws).positions = List.replicate (particleCount intensity) pos ∧
     (explode pos ty intensity draws).ty = ty ∧
     (explode pos ty intensity draws).age = 0 ∧
     (explode pos ty intensity draws).lifespan = 2 + intensity ∧
     (explode pos ty intensity draws).velocities.getD j ⟨0, 0, 0, 0⟩ =
       ⟨(explodeVel ty intensity j (draws j)).x, (explodeVel ty intensity j (draws j)).y,
        (explodeVel ty intensity j (draws j)).z, (draws j).rDecay * 0.01 + 0.005⟩) := by
  have hlaunch : (100 < now - last) ∧
      (ty = RocketType.heart → 45 / 100 < low ∧ intensity = low) ∧
      (ty = RocketType.star → 4 / 10 < mid ∧ r1 < 1 / 2 ∧ intensity = mid) ∧
      (ty = RocketType.leaf → 5 / 10 < high ∧ r2 < 4 / 10 ∧ intensity = high) ∧
      (ty = RocketType.dot → 1500 < now - last ∧ intensity = 3 / 10) := by
    unfold launchDecision at h
    split_ifs at h with hcool hlow hmid hhigh hidle
    · rw [Option.some.injEq, Prod.mk.injEq] at h
      obtain ⟨hty, hint⟩ := h
      subst hty
      exact ⟨hcool, fun _ => ⟨hlow, hint.symm⟩, by simp, by simp, by simp⟩
    · rw [Option.some.injEq, Prod.mk.injEq] at h
      obtain ⟨hty, hint⟩ := h
      subst hty
      exact ⟨hcool, by simp, fun _ => ⟨hmid.1, hmid.2, hint.symm⟩, by simp, by simp⟩
    · rw [Option.some.injEq, Prod.mk.injEq] at h
      obtain ⟨hty, hint⟩ := h
      subst hty
      exact ⟨hcool, by simp, by simp, fun _ => ⟨hhigh.1, hhigh.2, hint.symm⟩, by simp⟩
    · rw [Option.some.injEq, Prod.mk.injEq] at h
      obtain ⟨hty, hint⟩ := h
      subst hty
      exact ⟨hcool, by simp, by simp, by simp, fun _ => ⟨hidle, hint.symm⟩⟩
  refine ⟨hlaunch.1, hlaunch.2.1, hlaunch.2.2.1, hlaunch.2.2.2.1, hlaunch.2.2.2.2, ?_, ?_, ?_⟩
  · exact ⟨rfl, rfl, rfl, rfl⟩
  · constructor
    · simp only [updateRockets, List.mem_filter, decide_eq_true_eq]
    · simp only [updateRockets, List.mem_filter, decide_eq_true_eq]
  · refine ⟨?_, rfl, rfl, rfl, rfl, ?_⟩
    · rw [explode, List.length_map, List.length_range]
    · have hlen : j < ((List.range (particleCount intensity)).map fun i =>
          let v := explodeVel ty intensity i (draws i)
          (⟨v.x, v.y, v.z, (draws i).rDecay * 0.01 + 0.005⟩ : PartVel)).length := by
        rw [List.length_map, List.length_range]
        exact hj
      rw [explode]
      rw [List.getD_eq_getElem _ _ hlen]
      simp only [List.getElem_map, List.getElem_range]

/-- Witness for the amended C6 theorem: a concrete bass-triggered heart
launch. -/
theorem fireworks_launch_flight_burst_witness :
    (100 < (200 : ℚ) - 0) ∧
    (RocketType.heart = RocketType.heart → 45 / 100 < (1 : ℚ) ∧ (1 : ℚ) = 1) ∧
    (RocketType.heart = RocketType.star → 4 / 10 < (0 : ℚ) ∧ (0 : ℚ) < 1 / 2 ∧ (1 : ℚ) = 0) ∧
    (RocketType.heart = RocketType.leaf → 5 / 10 < (0 : ℚ) ∧ (0 : ℚ) < 4 / 10 ∧ (1 : ℚ) = 0) ∧
    (RocketType.heart = RocketType.dot → 1500 < (200 : ℚ) - 0 ∧ (1 : ℚ) = 3 / 10) ∧
    ((stepRocket 0 0 (launchRocket RocketType.heart 1 0 0 0 0)).vel =
        (launchRocket RocketType.heart 1 0 0 0 0).vel ∧
     (stepRocket 0 0 (launchRocket RocketType.heart 1 0 0 0 0)).pos.y =
        (launchRocket RocketType.heart 1 0 0 0 0).pos.y +
          (launchRocket RocketType.heart 1 0 0 0 0).vel.y ∧
     (stepRocket 0 0 (launchRocket RocketType.heart 1 0 0 0 0)).pos.x =
        (launchRocket RocketType.heart 1 0 0 0 0).pos.x +
          (launchRocket RocketType.heart 1 0 0 0 0).vel.x +
          Real.sin ((0 : ℝ) * 10 + (0 : ℕ)) * 0.05 ∧
     (stepRocket 0 0 (launchRocket RocketType.heart 1 0 0 0 0)).pos.z =
        (launchRocket RocketType.heart 1 0 0 0 0).pos.z +
          (launchRocket RocketType.heart 1 0 0 0 0).vel.z) ∧
    (((launchRocket RocketType.heart 1 0 0 0 0) ∈ (updateRockets 0 []).2 ↔
        (launchRocket RocketType.heart 1 0 0 0 0) ∈
          (List.enum ([] : List Rocket)).map (fun p => stepRocket 0 p.1 p.2) ∧
        (launchRocket RocketType.heart 1 0 0 0 0).targetY ≤
          (launchRocket RocketType.heart 1 0 0 0 0).pos.y) ∧
     ((launchRocket RocketType.heart 1 0 0 0 0) ∈ (updateRockets 0 []).1 ↔
        (launchRocket RocketType.heart 1 0 0 0 0) ∈
          (List.enum ([] : List Rocket)).map (fun p => stepRocket 0 p.1 p.2) ∧
        (launchRocket RocketType.heart 1 0 0 0 0).pos.y <
          (launchRocket RocketType.heart 1 0 0 0 0).targetY)) ∧
    ((explode ⟨0, 0, 0⟩ RocketType.heart 1 (fun _ => ⟨0, 0, 0, 0, 0, 0, 0⟩)).velocities.length =
        particleCount 1 ∧
     (explode ⟨0, 0, 0⟩ RocketType.heart 1 (fun _ => ⟨0, 0, 0, 0, 0, 0, 0⟩)).positions =
        List.replicate (particleCount 1) ⟨0, 0, 0⟩ ∧
     (explode ⟨0, 0, 0⟩ RocketType.heart 1 (fun _ => ⟨0, 0, 0, 0, 0, 0, 0⟩)).ty =
        RocketType.heart ∧
     (explode ⟨0, 0, 0⟩ RocketType.heart 1 (fun _ => ⟨0, 0, 0, 0, 0, 0, 0⟩)).age = 0 ∧
     (explode ⟨0, 0, 0⟩ RocketType.heart 1 (fun _ => ⟨0, 0, 0, 0, 0, 0, 0⟩)).lifespan = 2 + 1 ∧
     (explode ⟨0, 0, 0⟩ RocketType.heart 1
          (fun _ => ⟨0, 0, 0, 0, 0, 0, 0⟩)).velocities.getD 0 ⟨0, 0, 0, 0⟩ =
       ⟨(explodeVel RocketType.heart 1 0 ⟨0, 0, 0, 0, 0, 0, 0⟩).x,
        (explodeVel RocketType.heart 1 0 ⟨0, 0, 0, 0, 0, 0, 0⟩).y,
        (explodeVel RocketType.heart 1 0 ⟨0, 0, 0, 0, 0, 0, 0⟩).z,
        (0 : ℝ) * 0.01 + 0.005⟩) :=
  fireworks_launch_flight_burst 200 0 1 0 0 0 0 RocketType.heart 1 0 0
    (launchRocket RocketType.heart 1 0 0 0 0) [] ⟨0, 0, 0⟩ (fun _ => ⟨0, 0, 0, 0, 0, 0, 0⟩) 0
    (by unfold launchDecision; norm_num)
    (by norm_num [particleCount])

/- ### VisualizerManager: switchMode and the animate loop
(visualizer.js lines 1236-1353, part_000 lines 3236-3332)

Every effect's constructor does `scene.add(this.group)` and every
effect's `dispose` begins with `this.scene.remove(this.group)`, so an
effect instance is modelled by its group node id, its mode token and a
`disposed` flag.  `throws` records whether this instance's `dispose`
raises at runtime (an environmental fact, used only by the
exception-flow model of claim C9; effects constructed here are modelled
with a normally-completing dispose).  The scene root is the list of
attached group ids; the camera pose is the `position.set` /
`lookAt` pair and `fog` the optional `FogExp2` density.
`LightningStormEffect.dispose` also nulls the fog, which `switchMode`
re-nulls immediately afterwards, so the reset absorbs it. -/

structure EffectInst where
  id : ℕ
  mode : String
  disposed : Bool
  throws : Bool
deriving DecidableEq

structure Camera where
  pos : ℚ × ℚ × ℚ
  look : ℚ × ℚ × ℚ
deriving DecidableEq

structure MState where
  sceneNodes : List ℕ
  current : Option EffectInst
  camera : Camera
  fog : Option ℚ
  nextId : ℕ
deriving DecidableEq

/-- Effect disposal: `this.scene.remove(this.group)` detaches the
effect's whole subtree; the instance is marked disposed but any variable
still holding it keeps holding it. -/
def disposeEffect (e : EffectInst) (s : MState) : MState :=
  { s with sceneNodes := s.sceneNodes.erase e.id
           current := some { e with disposed := true } }

/-- Lines 1271-1273: `if (this.currentEffect) { this.currentEffect.dispose(); }`. -/
def disposeCurrent (s : MState) : MState :=
  match s.current with
  | none => s
  | some e => disposeEffect e s

/-- Lines 1275-1278: `this.camera.position.set(0, 5, 15);
this.camera.lookAt(0, 0, 0); this.scene.fog = null;`. -/
def resetCamera (s : MState) : MState :=
  { s with camera := ⟨(0, 5, 15), (0, 0, 0)⟩, fog := none }

/-- Construction of a fresh effect bound to the shared scene: the
constructor runs `scene.add(this.group)` and the new instance becomes
`this.currentEffect`. -/
def newEffect (mode : String) (s : MState) : MState :=
  { s with sceneNodes := s.nextId :: s.sceneNodes
           current := some ⟨s.nextId, mode, false, false⟩
           nextId := s.nextId + 1 }

/-- The `switch (mode)` statement of visualizer.js lines 1280-1303,
including the per-case camera poses and fog settings (lightning's `init`
sets `FogExp2(0x020008, 0.015)`); an unknown token falls through with no
case executed. -/
def constructEffect (mode : String) (s : MState) : MState :=
  if mode = "cosmic" then newEffect mode { s with fog := some (2 / 100) }
  else if mode = "wave" then newEffect mode { s with camera := ⟨(0, 5, 30), (0, 5, -50)⟩ }
  else if mode = "light" then newEffect mode s
  else if mode = "fireworks" then newEffect mode { s with camera := ⟨(0, 5, 40), (0, 10, 0)⟩ }
  else if mode = "lightning" then
    newEffect mode { s with camera := ⟨(0, 5, 30), (0, 10, 0)⟩, fog := some (15 / 1000) }
  else s

/-- `VisualizerManager.switchMode` of the visualizer.js revision
(no try/catch; dispose is modelled as completing normally here — the
exception flow is modelled separately for claim C9). -/
def switchMode (mode : String) (s : MState) : MState :=
  constructEffect mode (resetCamera (disposeCurrent s))

/-- Manager state as built by the constructor, before its trailing
`this.switchMode('cosmic')` call. -/
def initState : MState :=
  { sceneNodes := []
    current := none
    camera := ⟨(0, 5, 15), (0, 0, 0)⟩
    fog := none
    nextId := 0 }

/-- Mode tokens with a `case` in this revision's `switchMode`. -/
def recognizedA (mode : String) : Prop :=
  mode = "cosmic" ∨ mode = "wave" ∨ mode = "light" ∨ mode = "fireworks" ∨ mode = "lightning"

instance (mode : String) : Decidable (recognizedA mode) := by
  unfold recognizedA
  infer_instance

/-- Structural invariant of manager states: attached ids are distinct and
below the id counter, as is the current effect's id. -/
def wellFormed (s : MState) : Prop :=
  (∀ i ∈ s.sceneNodes, i < s.nextId) ∧ s.sceneNodes.Nodup ∧
  (∀ e, s.current = some e → e.id < s.nextId)

lemma wf_initState : wellFormed initState := by
  refine ⟨by simp [initState], by simp [initState], ?_⟩
  intro e he
  simp [initState] at he

lemma wf_disposeCurrent (s : MState) (h : wellFormed s) : wellFormed (disposeCurrent s) := by
  obtain ⟨h1, h2, h3⟩ := h
  unfold disposeCurrent
  cases hc : s.current with
  | none => exact ⟨h1, h2, h3⟩
  | some e =>
    refine ⟨?_, h2.erase _, ?_⟩
    · intro i hi
      exact h1 i (List.mem_of_mem_erase hi)
    · intro e' he'
      simp only [disposeEffect, Option.some.injEq] at he'
      rw [← he']
      exact h3 e hc

lemma wf_resetCamera (s : MState) (h : wellFormed s) : wellFormed (resetCamera s) := h

lemma newEffect_sceneNodes (mode : String) (s : MState) :
    (newEffect mode s).sceneNodes = s.nextId :: s.sceneNodes := rfl

lemma newEffect_nextId (mode : String) (s : MState) :
    (newEffect mode s).nextId = s.nextId + 1 := rfl

lemma newEffect_current (mode : String) (s : MState) :
    (newEffect mode s).current = some ⟨s.nextId, mode, false, false⟩ := rfl

lemma wf_newEffect (mode : String) (s : MState) (h : wellFormed s) :
    wellFormed (newEffect mode s) := by
  obtain ⟨h1, h2, h3⟩ := h
  refine ⟨?_, ?_, ?_⟩
  · intro i hi
    rw [newEffect_sceneNodes] at hi
    rw [newEffect_nextId]
    rcases List.mem_cons.mp hi with h | h
    · omega
    · have := h1 i h
      omega
  · rw [newEffect_sceneNodes, List.nodup_cons]
    exact ⟨fun hmem => absurd (h1 _ hmem) (by omega), h2⟩
  · intro e he
    rw [newEffect_current, Option.some.injEq] at he
    rw [newEffect_nextId, ← he]
    simp

lemma wf_constructEffect (mode : String) (s : MState) (h : wellFormed s) :
    wellFormed (constructEffect mode s) := by
  unfold constructEffect
  split_ifs <;> first
    | exact wf_newEffect _ _ h
    | exact h

lemma wf_switchMode (mode : String) (s : MState) (h : wellFormed s) :
    wellFormed (switchMode mode s) :=
  wf_constructEffect _ _ (wf_resetCamera _ (wf_disposeCurrent _ h))

lemma switchMode_old_id_gone (s : MState) (e : EffectInst) (mode : String)
    (hwf : wellFormed s) (h1 : s.current = some e) :
    e.id ∉ (switchMode mode s).sceneNodes := by
  obtain ⟨hb, hn, hc⟩ := hwf
  have hid : e.id < s.nextId := hc e h1
  have hdn : (disposeCurrent s).sceneNodes = s.sceneNodes.erase e.id := by
    simp [disposeCurrent, h1, disposeEffect]
  have hdi : (disposeCurrent s).nextId = s.nextId := by
    simp [disposeCurrent, h1, disposeEffect]
  have hgone : e.id ∉ (disposeCurrent s).sceneNodes := by
    rw [hdn]
    intro hmem
    exact absurd rfl ((hn.mem_erase_iff.mp hmem).1)
  have hne : ¬ e.id = (disposeCurrent s).nextId := by
    rw [hdi]
    omega
  unfold switchMode constructEffect
  split_ifs <;>
    simp only [newEffect, resetCamera, List.mem_cons, not_or] <;>
    first
      | exact ⟨hne, hgone⟩
      | exact hgone

/-- C2: `switchMode` disposes the current effect (when one exists) before
constructing the new one, and disposal removes the effect's group subtree
from the shared scene: after `switchMode A` the previously current
effect's node is gone from the scene root, and after a further
`switchMode B` the node of the effect installed by `A` is gone as well. -/
theorem switchMode_scene_atomicity (s : MState) (A B : String) (e eA : EffectInst)
    (hwf : wellFormed s) (h1 : s.current = some e)
    (hA : (switchMode A s).current = some eA) :
    e.id ∉ (switchMode A s).sceneNodes ∧
    eA.id ∉ (switchMode B (switchMode A s)).sceneNodes :=
  ⟨switchMode_old_id_gone s e A hwf h1,
   switchMode_old_id_gone (switchMode A s) eA B (wf_switchMode A s hwf) hA⟩

/-- Witness for C2: cosmic, then wave, then fireworks from the initial
state. -/
theorem switchMode_scene_atomicity_witness :
    (⟨0, "cosmic", false, false⟩ : EffectInst).id ∉
      (switchMode "wave" (switchMode "cosmic" initState)).sceneNodes ∧
    (⟨1, "wave", false, false⟩ : EffectInst).id ∉
      (switchMode "fireworks" (switchMode "wave" (switchMode "cosmic" initState))).sceneNodes :=
  switchMode_scene_atomicity (switchMode "cosmic" initState) "wave" "fireworks"
    ⟨0, "cosmic", false, false⟩ ⟨1, "wave", false, false⟩
    (wf_switchMode "cosmic" initState wf_initState) (by decide) (by decide)

/-- Counterexample to C7: switching to the unknown token "nebula" is not
a state-preserving no-op — the camera pose is reset, the current effect's
scene node is removed, and the stored instance is marked disposed. -/
theorem switchMode_unknown_not_noop :
    (switchMode "nebula" (switchMode "wave" initState)).camera ≠
      (switchMode "wave" initState).camera ∧
    (switchMode "nebula" (switchMode "wave" initState)).sceneNodes ≠
      (switchMode "wave" initState).sceneNodes ∧
    (switchMode "nebula" (switchMode "wave" initState)).current ≠
      (switchMode "wave" initState).current := by decide

/-- C7 amended: an unrecognized mode token constructs no effect (the
`switch` falls through), but `switchMode` still disposes the current
effect — removing its subtree and marking it disposed while leaving it
stored in `currentEffect` — and resets the camera pose to `(0,5,15)`
looking at the origin and clears the fog. -/
theorem switchMode_unknown_amended (s : MState) (mode : String)
    (h : ¬ recognizedA mode) :
    switchMode mode s = resetCamera (disposeCurrent s) := by
  unfold recognizedA at h
  push_neg at h
  obtain ⟨h1, h2, h3, h4, h5⟩ := h
  unfold switchMode constructEffect
  rw [if_neg h1, if_neg h2, if_neg h3, if_neg h4, if_neg h5]

/-- Witness for the amended C7 theorem at the token "nebula". -/
theorem switchMode_unknown_amended_witness :
    switchMode "nebula" initState = resetCamera (disposeCurrent initState) :=
  switchMode_unknown_amended initState "nebula" (by decide)

/- ### Animate loop traces (C8)

`animate` (visualizer.js lines 1342-1353) runs once per frame:
`if (this.currentEffect) { this.currentEffect.update(time, audioData); }`.
A trace interleaves user-driven `switchMode` calls with frames; each
frame logs which effect instance received `update` and whether that
instance had already been disposed at call time (the only way a disposed
instance can mutate the shared scene again is through such a call —
e.g. `FireworksEffect.update` writes `this.scene.rotation.y`). -/

inductive Ev
  | switch (mode : String)
  | frame
deriving DecidableEq

structure RunState where
  ms : MState
  log : List (ℕ × Bool)
deriving DecidableEq

def stepEv (r : RunState) (e : Ev) : RunState :=
  match e with
  | Ev.switch m => { r with ms := switchMode m r.ms }
  | Ev.frame =>
    match r.ms.current with
    | none => r
    | some eff => { r with log := r.log ++ [(eff.id, eff.disposed)] }

/-- Execution from the manager constructor (which ends with
`this.switchMode('cosmic')` and then starts the animate loop). -/
def run (evs : List Ev) : RunState :=
  evs.foldl stepEv ⟨switchMode "cosmic" initState, []⟩

/-- Counterexample to C8: after switching to an unrecognized token, the
manager still holds the now-disposed cosmic effect in `currentEffect`,
and the next frame invokes `update` on it — the trace log records an
update call on a disposed instance. -/
theorem animate_updates_disposed_effect :
    (run [Ev.switch "nebula", Ev.frame]).log = [(0, true)] ∧
    ¬ (∀ p ∈ (run [Ev.switch "nebula", Ev.frame]).log, p.2 = false) := by decide

/-- Invariant used for the amended C8 theorem: the current effect is
undisposed and no logged update call ever hit a disposed instance. -/
def LiveCurrent (r : RunState) : Prop :=
  (∀ e, r.ms.current = some e → e.disposed = false) ∧ (∀ q ∈ r.log, q.2 = false)

lemma switchMode_recognized_current (m : String) (s : MState) (hm : recognizedA m) :
    ∀ e, (switchMode m s).current = some e → e.disposed = false := by
  intro e he
  rcases hm with h | h | h | h | h <;> subst h <;>
    rw [switchMode, constructEffect] at he <;>
    simp only [String.reduceEq, if_true, if_false, reduceIte, newEffect_current,
      Option.some.injEq] at he <;>
    rw [← he]

lemma liveCurrent_step (r : RunState) (e : Ev)
    (he : ∀ m, e = Ev.switch m → recognizedA m) (hr : LiveCurrent r) :
    LiveCurrent (stepEv r e) := by
  obtain ⟨hcur, hlog⟩ := hr
  cases e with
  | switch m =>
    exact ⟨switchMode_recognized_current m r.ms (he m rfl), hlog⟩
  | frame =>
    cases hc : r.ms.current with
    | none =>
      simp only [stepEv, hc]
      exact ⟨hcur, hlog⟩
    | some eff =>
      simp only [stepEv, hc]
      refine ⟨hcur, ?_⟩
      intro q hq
      rcases List.mem_append.mp hq with h | h
      · exact hlog q h
      · rw [List.mem_singleton] at h
        rw [h]
        exact hcur eff hc

lemma liveCurrent_foldl (evs : List Ev) (r : RunState)
    (h : ∀ m, Ev.switch m ∈ evs → recognizedA m) (hr : LiveCurrent r) :
    LiveCurrent (evs.foldl stepEv r) := by
  induction evs generalizing r with
  | nil => exact hr
  | cons e evs ih =>
    rw [List.foldl_cons]
    refine ih (stepEv r e) (fun m hm => h m (List.mem_cons_of_mem _ hm)) ?_
    exact liveCurrent_step r e (fun m hme => h m (hme ▸ List.mem_cons_self _ _)) hr

/-- C8 amended: in every trace of `switchMode` and `animate` steps whose
switch events all use recognized mode tokens, `update` is never invoked
on an effect instance after its `dispose` has been called (with an
unrecognized token the property fails, as the counterexample shows). -/
theorem run_never_updates_disposed (evs : List Ev) (p : ℕ × Bool)
    (h : ∀ m, Ev.switch m ∈ evs → recognizedA m)
    (hp : p ∈ (run evs).log) : p.2 = false := by
  have hinit : LiveCurrent ⟨switchMode "cosmic" initState, []⟩ := by
    constructor
    · intro e he
      have : (switchMode "cosmic" initState).current =
          some ⟨0, "cosmic", false, false⟩ := by decide
      rw [this, Option.some.injEq] at he
      rw [← he]
    · intro q hq
      exact absurd hq (by simp)
  exact (liveCurrent_foldl evs _ h hinit).2 p hp

/-- Witness for the amended C8 theorem: one recognized switch and one
frame. -/
theorem run_never_updates_disposed_witness :
    ((1 : ℕ), false).2 = false :=
  run_never_updates_disposed [Ev.switch "wave", Ev.frame] (1, false)
    (by
      intro m hm
      simp only [List.mem_cons, List.not_mem_nil, or_false] at hm
      rcases hm with h | h
      · rw [Ev.switch.injEq] at h
        subst h
        exact Or.inr (Or.inl rfl)
      · exact absurd h (by simp))
    (by decide)

/- ### Dispose errors during a mode switch (C9)

The visualizer.js revision calls `this.currentEffect.dispose()` bare, so
an exception propagates out of `switchMode` before any case of the
`switch` runs.  The part_000 revision (lines 3236-3243) wraps the call in
`try { ... } catch (err) { console.error("Error disposing effect:", err) }`
and continues.  A dispose that throws is modelled as raising after
`scene.remove` (the later `geometry.dispose()` calls being the throw
site), leaving the partially-disposed state. -/

/-- `switchMode` of the visualizer.js revision with the exception flow
made explicit: `Except.error` carries the manager state at the moment the
exception escapes. -/
def switchModeV (mode : String) (s : MState) : Except MState MState :=
  match s.current with
  | some e =>
    if e.throws then Except.error (disposeEffect e s)
    else Except.ok (constructEffect mode (resetCamera (disposeEffect e s)))
  | none => Except.ok (constructEffect mode (resetCamera s))

/-- The `switch (mode)` of the part_000 revision, which also recognizes
`'reactor'` and `'multiverse'` (part_000 lines 3250-3283). -/
def constructEffectP (mode : String) (s : MState) : MState :=
  if mode = "cosmic" then newEffect mode { s with fog := some (2 / 100) }
  else if mode = "wave" then newEffect mode { s with camera := ⟨(0, 5, 30), (0, 5, -50)⟩ }
  else if mode = "light" then newEffect mode s
  else if mode = "fireworks" then newEffect mode { s with camera := ⟨(0, 5, 40), (0, 10, 0)⟩ }
  else if mode = "lightning" then
    newEffect mode { s with camera := ⟨(0, 5, 30), (0, 10, 0)⟩, fog := some (15 / 1000) }
  else if mode = "reactor" then newEffect mode { s with camera := ⟨(0, 0, 40), (0, 0, 0)⟩ }
  else if mode = "multiverse" then newEffect mode { s with camera := ⟨(0, 0, 50), (0, 0, 0)⟩ }
  else s

/-- Mode tokens recognized by the part_000 revision. -/
def recognizedP (mode : String) : Prop :=
  recognizedA mode ∨ mode = "reactor" ∨ mode = "multiverse"

/-- `switchMode` of the part_000 revision: the dispose error is caught
and logged (the returned flag records whether an error was logged) and
the switch always completes. -/
def switchModeP (mode : String) (s : MState) : MState × Bool :=
  match s.current with
  | some e => (constructEffectP mode (resetCamera (disposeEffect e s)), e.throws)
  | none => (constructEffectP mode (resetCamera s), false)

/-- Concrete state whose current effect's dispose throws. -/
def sThrow : MState :=
  { sceneNodes := [0]
    current := some ⟨0, "cosmic", false, true⟩
    camera := ⟨(0, 5, 15), (0, 0, 0)⟩
    fog := some (2 / 100)
    nextId := 1 }

/-- Counterexample to C9 for the visualizer.js revision: with no
try/catch around `dispose`, a throwing dispose propagates out of
`switchMode`; the escaping state still holds the old (now disposed)
effect and no new effect was constructed. -/
theorem switchModeV_dispose_throw_propagates :
    switchModeV "wave" sThrow =
      Except.error (disposeEffect ⟨0, "cosmic", false, true⟩ sThrow) ∧
    (disposeEffect ⟨0, "cosmic", false, true⟩ sThrow).current =
      some ⟨0, "cosmic", true, true⟩ ∧
    (disposeEffect ⟨0, "cosmic", false, true⟩ sThrow).nextId = sThrow.nextId := by
  refine ⟨rfl, rfl, rfl⟩

/-- C9 amended: in the part_000 revision of `switchMode` a dispose error
is caught and logged and the next effect is still constructed; in the
visualizer.js revision the exception propagates and aborts the switch
before any construction. -/
theorem switchModeP_swallows_dispose_error (s : MState) (e : EffectInst) (mode : String)
    (h : s.current = some e) (ht : e.throws = true) (hm : recognizedP mode) :
    (switchModeP mode s).2 = true ∧
    ∃ e', (switchModeP mode s).1.current = some e' ∧ e'.mode = mode ∧
      e'.disposed = false ∧ e'.id = s.nextId := by
  have h2 : switchModeP mode s =
      (constructEffectP mode (resetCamera (disposeEffect e s)), e.throws) := by
    simp [switchModeP, h]
  rw [h2, ht]
  refine ⟨rfl, ?_⟩
  have hnext : (resetCamera (disposeEffect e s)).nextId = s.nextId := rfl
  rcases hm with (h | h | h | h | h) | h | h <;> subst h <;>
    rw [constructEffectP] <;>
    simp only [String.reduceEq, if_true, if_false, reduceIte, newEffect_current] <;>
    exact ⟨_, rfl, rfl, rfl, rfl⟩

/-- Witness for the amended C9 theorem at the concrete throwing state. -/
theorem switchModeP_swallows_dispose_error_witness :
    (switchModeP "wave" sThrow).2 = true ∧
    ∃ e', (switchModeP "wave" sThrow).1.current = some e' ∧ e'.mode = "wave" ∧
      e'.disposed = false ∧ e'.id = sThrow.nextId :=
  switchModeP_swallows_dispose_error sThrow ⟨0, "cosmic", false, true⟩ "wave"
    rfl rfl (Or.inl (Or.inr (Or.inl rfl)))

end Visualizer
